import Mathlib

/-!
Shallow embedding of the Dilli waitlist application (src/app.py, src/models.py,
src/routes.py).

The persistent store is modelled as a `DB` value holding the two record types
of `models.py` (`Waitlist`, `WaitlistEntry`).  Each Flask route handler from
`routes.py` becomes a pure function from the current `DB` (plus the request
data, the session, and the values the store/uuid generator would supply:
fresh primary keys and fresh 8-character codes) to a result together with the
`DB` after the handler's single `db.session.commit()` (the input `DB`
unchanged when the handler aborts before the commit, or when the commit
itself is rejected by a uniqueness constraint).

Error surface mapping, following the handlers in `routes.py`:
* a `KeyError` on a required `data[...]` lookup is `validationError`,
* `first_or_404` / `get_or_404` failing is `notFound`,
* the `jsonify (error Unauthorized), 401` responses are `authorizationError`,
* a uniqueness-constraint rejection at commit time is `conflictError`.
-/

/-- `thank_you_page` JSON document of `models.Waitlist` (fields read back with
`dict.get`, hence each field is optional). -/
structure ThankYouPage where
  title : Option String
  message : Option String
  custom_html : Option String
deriving Repr, DecidableEq

/-- `submission_settings` JSON document of `models.Waitlist`. -/
structure SubmissionSettings where
  notify_email : Option String
  auto_response : Option Bool
  response_email_template : Option String
deriving Repr, DecidableEq

/-- Column default of `thank_you_page` in `models.py`. -/
def defaultThankYouPage : ThankYouPage :=
  { title := some "Thank you for joining!"
    message := some "You have been added to the waitlist."
    custom_html := some "" }

/-- Column default of `submission_settings` in `models.py`. -/
def defaultSubmissionSettings : SubmissionSettings :=
  { notify_email := some ""
    auto_response := some true
    response_email_template := some "default" }

/-- `models.Waitlist` row.  `custom_styles` is an opaque JSON document that no
handler ever inspects; it is modelled as an association list. -/
structure Waitlist where
  id : Nat
  name : String
  description : String
  url_slug : String
  website_url : Option String
  form_key : String
  custom_styles : List (String × String)
  thank_you_page : ThankYouPage
  submission_settings : SubmissionSettings
  is_published : Bool
  user_id : String
deriving Repr, DecidableEq

/-- `models.WaitlistEntry` row. -/
structure WaitlistEntry where
  id : Nat
  waitlist_id : Nat
  email : String
  position : Nat
  referral_code : String
  referral_count : Nat
  referred_by : Option Nat
deriving Repr, DecidableEq

/-- The persistent store: the two tables of `models.py`. -/
structure DB where
  waitlists : List Waitlist
  entries : List WaitlistEntry
deriving Repr, DecidableEq

/-- Error taxonomy of the route handlers (see the header comment for the
mapping onto the Python control flow). -/
inductive Err where
  | notFound
  | authorizationError
  | validationError (key : String)
  | conflictError
deriving Repr, DecidableEq

/-- `WaitlistEntry.query.filter_by(waitlist_id=wid)`. -/
def entriesFor (db : DB) (wid : Nat) : List WaitlistEntry :=
  db.entries.filter (fun e => e.waitlist_id == wid)

/-- The position-generation read of `join_waitlist`:
`query.filter_by(waitlist_id).order_by(position.desc()).first()` yields the
entry of maximal position (or none), and the handler computes
`(last_entry.position + 1) if last_entry else 1`. -/
def nextPosition (db : DB) (wid : Nat) : Nat :=
  match (entriesFor db wid).map (fun e => e.position) with
  | [] => 1
  | p :: ps => ps.foldl max p + 1

/-- `referrer.referral_count += 1` performed on the row with primary key `r`
(primary keys are unique, so at most one row changes). -/
def bumpReferral (entries : List WaitlistEntry) (r : Nat) : List WaitlistEntry :=
  entries.map (fun e =>
    if e.id == r then { e with referral_count := e.referral_count + 1 } else e)

/-- The referrer-update step of `join_waitlist`:
`if entry.referred_by:` (Python truthiness, so `0` and absent both skip) then
`referrer = WaitlistEntry.query.get(entry.referred_by)` and
`if referrer: referrer.referral_count += 1` (silent no-op when absent). -/
def referralEffect (entries : List WaitlistEntry) (rb : Option Nat) :
    List WaitlistEntry :=
  match rb with
  | none => entries
  | some r =>
    if r == 0 then entries
    else
      match entries.find? (fun e => e.id == r) with
      | some _ => bumpReferral entries r
      | none => entries

/-- Request body of `POST /waitlist/<slug>/join`: `data['email']` is a
required key, `data.get('referred_by')` is optional. -/
structure JoinData where
  email : Option String
  referred_by : Option Nat
deriving Repr, DecidableEq

/-- Success payload of `join_waitlist`. -/
structure JoinResult where
  position : Nat
  referral_code : String
deriving Repr, DecidableEq

/-- Handler `join_waitlist` of `routes.py` (route `/waitlist/<slug>/join`).
`freshId` is the autoincrement primary key and `freshCode` the
`str(uuid.uuid4())[:8]` referral code the run would generate.  Steps, in
source order: resolve the waitlist by slug (`first_or_404`), read the maximal
position, read `data['email']` while constructing the entry, apply the
referrer update in the session, then a single `db.session.commit()` that
persists the new entry and the updated referrer together — rejected
atomically if `freshCode` violates the `referral_code` uniqueness
constraint. -/
def join_waitlist (db : DB) (slug : String) (data : JoinData)
    (freshId : Nat) (freshCode : String) : Except Err JoinResult × DB :=
  match db.waitlists.find? (fun w => w.url_slug == slug) with
  | none => (.error .notFound, db)
  | some waitlist =>
    let position := nextPosition db waitlist.id
    match data.email with
    | none => (.error (.validationError "email"), db)
    | some email =>
      let entry : WaitlistEntry :=
        { id := freshId
          waitlist_id := waitlist.id
          email := email
          position := position
          referral_code := freshCode
          referral_count := 0
          referred_by := data.referred_by }
      if db.entries.any (fun e => e.referral_code == freshCode) then
        (.error .conflictError, db)
      else
        (.ok { position := position, referral_code := freshCode },
         { db with entries := referralEffect db.entries data.referred_by ++ [entry] })

/-- Request body of `POST /waitlist/create`: `data['name']`,
`data['description']`, `data['url_slug']` are required keys (read in that
order while the `Waitlist(...)` constructor call is evaluated),
`data.get('custom_styles', dict())` is optional. -/
structure CreateData where
  name : Option String
  description : Option String
  url_slug : Option String
  custom_styles : Option (List (String × String))
deriving Repr, DecidableEq

/-- Handler `create_waitlist` of `routes.py` (route `/waitlist/create`).
`sess` is `session['user']['id']` when a user is in the session.  `freshId`
is the autoincrement primary key and `freshFormKey` the
`str(uuid.uuid4())[:8]` column default for `form_key`.  The commit is
rejected when `url_slug` or `form_key` violates its uniqueness constraint. -/
def create_waitlist (db : DB) (sess : Option String) (data : CreateData)
    (freshId : Nat) (freshFormKey : String) : Except Err Nat × DB :=
  match sess with
  | none => (.error .authorizationError, db)
  | some uid =>
    match data.name with
    | none => (.error (.validationError "name"), db)
    | some name =>
      match data.description with
      | none => (.error (.validationError "description"), db)
      | some description =>
        match data.url_slug with
        | none => (.error (.validationError "url_slug"), db)
        | some url_slug =>
          let w : Waitlist :=
            { id := freshId
              name := name
              description := description
              url_slug := url_slug
              website_url := none
              form_key := freshFormKey
              custom_styles := data.custom_styles.getD []
              thank_you_page := defaultThankYouPage
              submission_settings := defaultSubmissionSettings
              is_published := false
              user_id := uid }
          if db.waitlists.any (fun x => x.url_slug == url_slug) ||
             db.waitlists.any (fun x => x.form_key == freshFormKey) then
            (.error .conflictError, db)
          else
            (.ok freshId, { db with waitlists := db.waitlists ++ [w] })

/-- One access to the persistence store, recorded by the instrumented
settings handlers so that theorems can speak about whether (and when) the
store was consulted. -/
inductive StoreOp where
  | readWaitlist (id : Nat)
  | commit
deriving Repr, DecidableEq

/-- Outcome of a settings-update handler:
`401 Unauthorized`, the `get_or_404` abort, or the success payload. -/
inductive UpdateResp where
  | unauthorized
  | notFound
  | success
deriving Repr, DecidableEq

/-- Request body of `POST /waitlist/<id>/settings/basic`
(`data.get('name', ...)`, `data.get('website_url', ...)`). -/
structure BasicData where
  name : Option String
  website_url : Option String
deriving Repr, DecidableEq

/-- Handler `update_basic_settings` of `routes.py`.  Source order: session
presence check first (no store access), then `Waitlist.query.get_or_404`
(one store read), then the owner check, then field merges and one commit.
The third component is the trace of store accesses performed. -/
def update_basic_settings (db : DB) (sess : Option String) (wid : Nat)
    (data : BasicData) : UpdateResp × DB × List StoreOp :=
  match sess with
  | none => (.unauthorized, db, [])
  | some uid =>
    match db.waitlists.find? (fun w => w.id == wid) with
    | none => (.notFound, db, [.readWaitlist wid])
    | some w =>
      if w.user_id == uid then
        let w' : Waitlist :=
          { w with
            name := data.name.getD w.name
            website_url :=
              match data.website_url with
              | some u => some u
              | none => w.website_url }
        (.success,
         { db with waitlists :=
             db.waitlists.map (fun x => if x.id == wid then w' else x) },
         [.readWaitlist wid, .commit])
      else (.unauthorized, db, [.readWaitlist wid])

/-- Request body of `POST /waitlist/<id>/settings/thank-you`. -/
structure ThankYouData where
  title : Option String
  message : Option String
  custom_html : Option String
deriving Repr, DecidableEq

/-- The merged document built by `update_thank_you_settings`:
`data.get(k, waitlist.thank_you_page.get(k))` for each of the three keys. -/
def mergeThankYou (old : ThankYouPage) (data : ThankYouData) : ThankYouPage :=
  { title :=
      match data.title with
      | some t => some t
      | none => old.title
    message :=
      match data.message with
      | some m => some m
      | none => old.message
    custom_html :=
      match data.custom_html with
      | some c => some c
      | none => old.custom_html }

/-- Handler `update_thank_you_settings` of `routes.py`; same shape as
`update_basic_settings` (session check, `get_or_404` read, owner check,
merge, one commit). -/
def update_thank_you_settings (db : DB) (sess : Option String) (wid : Nat)
    (data : ThankYouData) : UpdateResp × DB × List StoreOp :=
  match sess with
  | none => (.unauthorized, db, [])
  | some uid =>
    match db.waitlists.find? (fun w => w.id == wid) with
    | none => (.notFound, db, [.readWaitlist wid])
    | some w =>
      if w.user_id == uid then
        let w' : Waitlist := { w with thank_you_page := mergeThankYou w.thank_you_page data }
        (.success,
         { db with waitlists :=
             db.waitlists.map (fun x => if x.id == wid then w' else x) },
         [.readWaitlist wid, .commit])
      else (.unauthorized, db, [.readWaitlist wid])

/-- Request body of `POST /waitlist/<id>/settings/submissions`. -/
structure SubmissionData where
  notify_email : Option String
  auto_response : Option Bool
  response_email_template : Option String
deriving Repr, DecidableEq

/-- The merged document built by `update_submission_settings`. -/
def mergeSubmission (old : SubmissionSettings) (data : SubmissionData) :
    SubmissionSettings :=
  { notify_email :=
      match data.notify_email with
      | some v => some v
      | none => old.notify_email
    auto_response :=
      match data.auto_response with
      | some v => some v
      | none => old.auto_response
    response_email_template :=
      match data.response_email_template with
      | some v => some v
      | none => old.response_email_template }

/-- Handler `update_submission_settings` of `routes.py`; same shape as
`update_basic_settings`. -/
def update_submission_settings (db : DB) (sess : Option String) (wid : Nat)
    (data : SubmissionData) : UpdateResp × DB × List StoreOp :=
  match sess with
  | none => (.unauthorized, db, [])
  | some uid =>
    match db.waitlists.find? (fun w => w.id == wid) with
    | none => (.notFound, db, [.readWaitlist wid])
    | some w =>
      if w.user_id == uid then
        let w' : Waitlist :=
          { w with submission_settings := mergeSubmission w.submission_settings data }
        (.success,
         { db with waitlists :=
             db.waitlists.map (fun x => if x.id == wid then w' else x) },
         [.readWaitlist wid, .commit])
      else (.unauthorized, db, [.readWaitlist wid])

/-- Payload rendered by the `analytics` handler. -/
structure AnalyticsData where
  total_entries : Nat
  total_referrals : Nat
  daily_joins : List (String × Nat)
deriving Repr, DecidableEq

/-- Handler `analytics` of `routes.py` (route `/analytics/<waitlist_id>`), a
pure read: session check (the source redirects to the index page, surfaced
here as `authorizationError`), `get_or_404`, owner check, then counts and
sums over the waitlist's entries; `daily_joins` is left as the empty dict
(`Implement daily join count logic` comment in the source). -/
def analytics (db : DB) (sess : Option String) (wid : Nat) :
    Except Err AnalyticsData :=
  match sess with
  | none => .error .authorizationError
  | some uid =>
    match db.waitlists.find? (fun w => w.id == wid) with
    | none => .error .notFound
    | some w =>
      if w.user_id == uid then
        let entries := entriesFor db wid
        .ok { total_entries := entries.length
              total_referrals := (entries.map (fun e => e.referral_count)).sum
              daily_joins := [] }
      else .error .authorizationError

/-- The read half of `join_waitlist` (steps up to computing the next
position): resolve the slug and read the current maximal position.  Split
out because the source takes no lock between this read and the insert, so
two concurrent requests can both run it against the same store state. -/
def joinRead (db : DB) (slug : String) : Option (Nat × Nat) :=
  (db.waitlists.find? (fun w => w.url_slug == slug)).map
    (fun w => (w.id, nextPosition db w.id))

/-- The write half of `join_waitlist` for a referral-free request: insert the
new entry at the position computed by the earlier `joinRead`. -/
def joinCommit (db : DB) (wid pos : Nat) (email code : String)
    (freshId : Nat) : DB :=
  { db with entries := db.entries ++
      [{ id := freshId
         waitlist_id := wid
         email := email
         position := pos
         referral_code := code
         referral_count := 0
         referred_by := none }] }

/-- One call to `POST /waitlist/<slug>/join`: the request body plus the fresh
values this run draws (autoincrement id, uuid-derived code). -/
structure JoinCall where
  data : JoinData
  freshId : Nat
  freshCode : String
deriving Repr, DecidableEq

/-- A sequence of non-concurrent `join_waitlist` calls against one slug,
stopping at the first error; collects the `position` values returned to the
callers, in call order. -/
def joinSeq (db : DB) (slug : String) : List JoinCall → Except Err (DB × List Nat)
  | [] => .ok (db, [])
  | c :: cs =>
    match join_waitlist db slug c.data c.freshId c.freshCode with
    | (.ok res, db1) =>
      match joinSeq db1 slug cs with
      | .ok (db2, ps) => .ok (db2, res.position :: ps)
      | .error e => .error e
    | (.error e, _) => .error e

/-- Sample waitlist row for concrete scenarios. -/
def mkWl (i : Nat) (slug owner : String) : Waitlist :=
  { id := i
    name := "Beta"
    description := "demo"
    url_slug := slug
    website_url := none
    form_key := "fk" ++ slug
    custom_styles := []
    thank_you_page := defaultThankYouPage
    submission_settings := defaultSubmissionSettings
    is_published := false
    user_id := owner }

/-- Sample entry row for concrete scenarios. -/
def mkEntry (i wid pos : Nat) (em code : String) (rb : Option Nat)
    (cnt : Nat) : WaitlistEntry :=
  { id := i
    waitlist_id := wid
    email := em
    position := pos
    referral_code := code
    referral_count := cnt
    referred_by := rb }

/-- Store with one waitlist (id 1, slug `beta`, owner `alice`), no entries. -/
def dbOne : DB := { waitlists := [mkWl 1 "beta" "alice"], entries := [] }

/-- Store for referral scenarios: the `beta` waitlist already has one entry
(id 1, position 1, no referrals yet). -/
def dbRef : DB :=
  { waitlists := [mkWl 1 "beta" "alice"]
    entries := [mkEntry 1 1 1 "a@x.com" "r1" none 0] }

/-- Store with two waitlists (`alpha` owned by `alice`, `beta` owned by
`bob`) and one entry enrolled in `alpha`. -/
def dbTwo : DB :=
  { waitlists := [mkWl 1 "alpha" "alice", mkWl 2 "beta" "bob"]
    entries := [mkEntry 1 1 1 "a@x.com" "r1" none 0] }

/-- Store for the analytics scenario: waitlist 1 has two entries with
referral counts 1 and 2, waitlist 2 has one unrelated entry. -/
def dbStats : DB :=
  { waitlists := [mkWl 1 "beta" "alice", mkWl 2 "gamma" "bob"]
    entries := [mkEntry 1 1 1 "a@x.com" "r1" none 1,
                mkEntry 2 1 2 "b@x.com" "r2" none 2,
                mkEntry 3 2 1 "c@x.com" "r3" none 7] }

/-- First sample join request (no referral). -/
def callA : JoinCall :=
  { data := { email := some "a@x.com", referred_by := none }
    freshId := 1
    freshCode := "c1" }

/-- Second sample join request (no referral). -/
def callB : JoinCall :=
  { data := { email := some "b@x.com", referred_by := none }
    freshId := 2
    freshCode := "c2" }

/-! ### Helper lemmas -/


theorem join_ok (db : DB) (slug : String) (d : JoinData) (i : Nat) (c : String)
    (w : Waitlist) (em : String)
    (hw : db.waitlists.find? (fun x => x.url_slug == slug) = some w)
    (he : d.email = some em)
    (hfresh : db.entries.any (fun e => e.referral_code == c) = false) :
    join_waitlist db slug d i c =
      (.ok { position := nextPosition db w.id, referral_code := c },
       { db with entries := referralEffect db.entries d.referred_by ++
           [{ id := i, waitlist_id := w.id, email := em,
              position := nextPosition db w.id, referral_code := c,
              referral_count := 0, referred_by := d.referred_by }] }) := by
  simp [join_waitlist, hw, he, hfresh]

theorem map_filter_invar {α β : Type} (f : α → α) (p : α → Bool) (g : α → β)
    (hp : ∀ x, p (f x) = p x) (hg : ∀ x, g (f x) = g x) (l : List α) :
    ((l.map f).filter p).map g = (l.filter p).map g := by
  induction l with
  | nil => rfl
  | cons a as ih =>
    simp only [List.map_cons, List.filter_cons, hp a]
    by_cases h : p a = true
    · simp [h, hg a, ih]
    · simp [h, ih]

theorem map_map_invar {α β : Type} (f : α → α) (g : α → β)
    (hg : ∀ x, g (f x) = g x) (l : List α) :
    (l.map f).map g = l.map g := by
  induction l with
  | nil => rfl
  | cons a as ih => simp only [List.map_cons, hg a, ih]

theorem bumpReferral_filter_position (l : List WaitlistEntry) (r wid : Nat) :
    ((bumpReferral l r).filter (fun e => e.waitlist_id == wid)).map
        (fun e => e.position)
      = (l.filter (fun e => e.waitlist_id == wid)).map (fun e => e.position) := by
  unfold bumpReferral
  refine map_filter_invar _ _ _ ?_ ?_ l <;>
    intro x <;> by_cases h : (x.id == r) = true <;> simp [h]

theorem bumpReferral_map_code (l : List WaitlistEntry) (r : Nat) :
    (bumpReferral l r).map (fun e => e.referral_code)
      = l.map (fun e => e.referral_code) := by
  unfold bumpReferral
  refine map_map_invar _ _ ?_ l
  intro x; by_cases h : (x.id == r) = true <;> simp [h]

theorem referralEffect_filter_position (l : List WaitlistEntry)
    (rb : Option Nat) (wid : Nat) :
    ((referralEffect l rb).filter (fun e => e.waitlist_id == wid)).map
        (fun e => e.position)
      = (l.filter (fun e => e.waitlist_id == wid)).map (fun e => e.position) := by
  cases rb with
  | none => rfl
  | some r =>
    by_cases h : (r == 0) = true
    · simp [referralEffect, h]
    · cases hf : l.find? (fun e => e.id == r) <;>
        simp [referralEffect, h, hf, bumpReferral_filter_position]

theorem referralEffect_map_code (l : List WaitlistEntry) (rb : Option Nat) :
    (referralEffect l rb).map (fun e => e.referral_code)
      = l.map (fun e => e.referral_code) := by
  cases rb with
  | none => rfl
  | some r =>
    by_cases h : (r == 0) = true
    · simp [referralEffect, h]
    · cases hf : l.find? (fun e => e.id == r) <;>
        simp [referralEffect, h, hf, bumpReferral_map_code]

theorem foldl_max_range' (n : Nat) : ∀ a : Nat,
    (List.range' (a + 1) n).foldl max a = a + n := by
  induction n with
  | zero => intro a; rfl
  | succ m ih =>
    intro a
    rw [List.range'_succ, List.foldl_cons, Nat.max_eq_right (Nat.le_succ a)]
    rw [ih (a + 1)]
    omega

theorem nextPosition_of_range (db : DB) (wid k : Nat)
    (h : (entriesFor db wid).map (fun e => e.position) = List.range' 1 k) :
    nextPosition db wid = k + 1 := by
  unfold nextPosition
  rw [h]
  cases k with
  | zero => rfl
  | succ m =>
    rw [List.range'_succ]
    show (List.range' (1 + 1) m).foldl max 1 + 1 = m + 1 + 1
    rw [foldl_max_range' m 1]
    omega

theorem join_step_invariants (db : DB) (slug : String) (d : JoinData)
    (i : Nat) (cstr : String) (w : Waitlist) (em : String) (k : Nat)
    (hw : db.waitlists.find? (fun x => x.url_slug == slug) = some w)
    (he : d.email = some em)
    (hfresh : db.entries.any (fun e => e.referral_code == cstr) = false)
    (hpos : (entriesFor db w.id).map (fun e => e.position) = List.range' 1 k) :
    ∃ db1 : DB,
      join_waitlist db slug d i cstr =
        (.ok { position := k + 1, referral_code := cstr }, db1) ∧
      db1.waitlists = db.waitlists ∧
      (entriesFor db1 w.id).map (fun e => e.position) = List.range' 1 (k + 1) ∧
      db1.entries.map (fun e => e.referral_code) =
        db.entries.map (fun e => e.referral_code) ++ [cstr] := by
  have hnp := nextPosition_of_range db w.id k hpos
  have hj := join_ok db slug d i cstr w em hw he hfresh
  rw [hnp] at hj
  refine ⟨_, hj, rfl, ?_, ?_⟩
  · unfold entriesFor
    show ((referralEffect db.entries d.referred_by ++ _).filter _).map _ = _
    rw [List.filter_append, List.map_append, referralEffect_filter_position]
    have hone : (1 : Nat) + 1 * k = k + 1 := by omega
    rw [show (entriesFor db w.id = db.entries.filter (fun e => e.waitlist_id == w.id)) from rfl] at hpos
    rw [hpos, List.range'_concat 1 k, hone]
    simp
  · show (referralEffect db.entries d.referred_by ++ _).map _ = _
    rw [List.map_append, referralEffect_map_code]
    rfl

theorem joinSeq_cons_ok (db db1 : DB) (slug : String) (c : JoinCall)
    (cs : List JoinCall) (res : JoinResult)
    (hj : join_waitlist db slug c.data c.freshId c.freshCode = (.ok res, db1)) :
    joinSeq db slug (c :: cs) =
      match joinSeq db1 slug cs with
      | .ok (db2, ps) => .ok (db2, res.position :: ps)
      | .error e => .error e := by
  simp only [joinSeq]
  rw [hj]

theorem joinSeq_positions (slug : String) (calls : List JoinCall) :
    ∀ (db : DB) (w : Waitlist) (k : Nat),
    db.waitlists.find? (fun x => x.url_slug == slug) = some w →
    (entriesFor db w.id).map (fun e => e.position) = List.range' 1 k →
    (∀ c ∈ calls, (c.data.email).isSome = true) →
    (calls.map (fun c => c.freshCode)).Nodup →
    (∀ c ∈ calls, c.freshCode ∉ db.entries.map (fun e => e.referral_code)) →
    ∃ db' : DB,
      joinSeq db slug calls = .ok (db', List.range' (k + 1) calls.length) ∧
      (entriesFor db' w.id).map (fun e => e.position) =
        List.range' 1 (k + calls.length) := by
  induction calls with
  | nil =>
    intro db w k hw hpos _ _ _
    exact ⟨db, rfl, by simpa using hpos⟩
  | cons c cs ih =>
    intro db w k hw hpos hemail hnodup hfreshAll
    obtain ⟨em, he⟩ :=
      Option.isSome_iff_exists.mp (hemail c (List.mem_cons_self c cs))
    have hnotin : c.freshCode ∉ db.entries.map (fun e => e.referral_code) :=
      hfreshAll c (List.mem_cons_self c cs)
    have hfresh : db.entries.any (fun e => e.referral_code == c.freshCode) = false := by
      rw [List.any_eq_false]
      intro e hel
      simp only [beq_iff_eq]
      intro heq
      exact hnotin (heq ▸ List.mem_map_of_mem _ hel)
    obtain ⟨db1, hj, hwl, hpos1, hcodes⟩ :=
      join_step_invariants db slug c.data c.freshId c.freshCode w em k hw he hfresh hpos
    simp only [List.map_cons, List.nodup_cons] at hnodup
    have hw1 : db1.waitlists.find? (fun x => x.url_slug == slug) = some w := by
      rw [hwl]; exact hw
    have hfreshAll1 : ∀ c' ∈ cs,
        c'.freshCode ∉ db1.entries.map (fun e => e.referral_code) := by
      intro c' hc'
      rw [hcodes, List.mem_append]
      push_neg
      refine ⟨hfreshAll c' (List.mem_cons_of_mem c hc'), ?_⟩
      simp only [List.mem_singleton]
      intro heq
      exact hnodup.1 (heq ▸ List.mem_map_of_mem _ hc')
    obtain ⟨db2, hseq, hpos2⟩ :=
      ih db1 w (k + 1) hw1 hpos1
        (fun c' hc' => hemail c' (List.mem_cons_of_mem c hc'))
        hnodup.2 hfreshAll1
    refine ⟨db2, ?_, ?_⟩
    · rw [joinSeq_cons_ok db db1 slug c cs _ hj, hseq]
      rw [List.length_cons, List.range'_succ]
    · have hlen : k + 1 + cs.length = k + (c :: cs).length := by
        simp [List.length_cons]; omega
      rw [← hlen]
      exact hpos2

theorem find?_update_by_id (l : List Waitlist) (wid : Nat) (w w' : Waitlist)
    (hw : l.find? (fun x => x.id == wid) = some w) (hid : w'.id = w.id) :
    (l.map (fun x => if x.id == wid then w' else x)).find?
        (fun x => x.id == wid) = some w' := by
  induction l with
  | nil => simp at hw
  | cons a as ih =>
    by_cases h : (a.id == wid) = true
    · rw [@List.find?_cons_of_pos Waitlist (fun x => x.id == wid) a as h] at hw
      have haw : a = w := by injection hw
      have h2 : (w'.id == wid) = true := by rw [hid, ← haw]; exact h
      have hmap : (a :: as).map (fun x => if x.id == wid then w' else x)
          = w' :: as.map (fun x => if x.id == wid then w' else x) := by
        simp only [List.map_cons]
        rw [if_pos h]
      rw [hmap]
      exact @List.find?_cons_of_pos Waitlist (fun x => x.id == wid) w' _ h2
    · rw [@List.find?_cons_of_neg Waitlist (fun x => x.id == wid) a as h] at hw
      have hmap : (a :: as).map (fun x => if x.id == wid then w' else x)
          = a :: as.map (fun x => if x.id == wid then w' else x) := by
        simp only [List.map_cons]
        rw [if_neg h]
      rw [hmap, @List.find?_cons_of_neg Waitlist (fun x => x.id == wid) a _ h]
      exact ih hw

theorem join_phases_agree (db : DB) (slug em code : String) (i wid pos : Nat)
    (hr : joinRead db slug = some (wid, pos))
    (hfresh : db.entries.any (fun e => e.referral_code == code) = false) :
    join_waitlist db slug { email := some em, referred_by := none } i code =
      (.ok { position := pos, referral_code := code },
       joinCommit db wid pos em code i) := by
  unfold joinRead at hr
  cases hfind : db.waitlists.find? (fun w => w.url_slug == slug) with
  | none => rw [hfind] at hr; simp at hr
  | some w =>
    rw [hfind] at hr
    simp only [Option.map_some'] at hr
    have hwid : w.id = wid := congrArg Prod.fst (Option.some_inj.mp hr)
    have hpos : nextPosition db w.id = pos := congrArg Prod.snd (Option.some_inj.mp hr)
    rw [join_ok db slug _ i code w em hfind rfl hfresh]
    unfold joinCommit referralEffect
    rw [hpos, hwid]

/-! ### Claims -/

/-- C1: For every waitlist with no entries yet, after N sequential
(non-concurrent) Join calls on its url_slug (each request carrying an email,
with the generated referral codes pairwise distinct and fresh), the persisted
entries for that waitlist have positions exactly [1, …, N] in call order, and
the k-th call returns position k — previous maximum position + 1, or 1 when
the waitlist has no entries. -/
theorem join_sequential_positions (db : DB) (slug : String) (w : Waitlist)
    (calls : List JoinCall)
    (hw : db.waitlists.find? (fun x => x.url_slug == slug) = some w)
    (hempty : entriesFor db w.id = [])
    (hemail : ∀ c ∈ calls, (c.data.email).isSome = true)
    (hnodup : (calls.map (fun c => c.freshCode)).Nodup)
    (hfreshAll : ∀ c ∈ calls,
      c.freshCode ∉ db.entries.map (fun e => e.referral_code)) :
    ∃ db' : DB,
      joinSeq db slug calls = .ok (db', List.range' 1 calls.length) ∧
      (entriesFor db' w.id).map (fun e => e.position) =
        List.range' 1 calls.length := by
  have h0 : (entriesFor db w.id).map (fun e => e.position) = List.range' 1 0 := by
    rw [hempty]; rfl
  have h := joinSeq_positions slug calls db w 0 hw h0 hemail hnodup hfreshAll
  simpa using h

/-- C1 witness: two joins on the fresh `beta` waitlist return positions
[1, 2] and persist entries at positions [1, 2]. -/
theorem join_sequential_positions_witness :
    ∃ db' : DB,
      joinSeq dbOne "beta" [callA, callB] = .ok (db', List.range' 1 2) ∧
      (entriesFor db' (mkWl 1 "beta" "alice").id).map (fun e => e.position) =
        List.range' 1 2 :=
  join_sequential_positions dbOne "beta" (mkWl 1 "beta" "alice") [callA, callB]
    rfl rfl (by decide) (by decide) (by decide)

/-- C2 counterexample: the claim says a non-owner mutation attempt fails
`without consulting the store`, but `update_basic_settings` performs the
`get_or_404` store read before its owner check: an authenticated non-owner
caller (`bob` against `alice`'s waitlist) is refused with unauthorized, yet
the store-access trace is `[readWaitlist 1]`, not the empty trace the claim
requires. -/
theorem update_basic_nonowner_consults_store :
    update_basic_settings dbOne (some "bob") 1
        { name := none, website_url := none } =
      (.unauthorized, dbOne, [.readWaitlist 1]) ∧
    ([StoreOp.readWaitlist 1] : List StoreOp) ≠ [] :=
  ⟨rfl, by decide⟩

/-- C2 (amended): for every settings update (basic, thank-you, submissions),
an unauthenticated caller is refused with unauthorized, with no mutation and
no store access at all; an authenticated caller who is not the owner is
refused with unauthorized and no mutation, after exactly one store read (the
waitlist lookup) and no commit. -/
theorem settings_update_auth_gate (db : DB) (wid : Nat) (bd : BasicData)
    (td : ThankYouData) (sd : SubmissionData) :
    (update_basic_settings db none wid bd = (.unauthorized, db, []) ∧
     update_thank_you_settings db none wid td = (.unauthorized, db, []) ∧
     update_submission_settings db none wid sd = (.unauthorized, db, [])) ∧
    (∀ (uid : String) (w : Waitlist),
      db.waitlists.find? (fun x => x.id == wid) = some w →
      w.user_id ≠ uid →
      update_basic_settings db (some uid) wid bd =
        (.unauthorized, db, [.readWaitlist wid]) ∧
      update_thank_you_settings db (some uid) wid td =
        (.unauthorized, db, [.readWaitlist wid]) ∧
      update_submission_settings db (some uid) wid sd =
        (.unauthorized, db, [.readWaitlist wid])) := by
  constructor
  · exact ⟨rfl, rfl, rfl⟩
  · intro uid w hw hne
    have hbeq : (w.user_id == uid) = false := beq_false_of_ne hne
    refine ⟨?_, ?_, ?_⟩
    · simp [update_basic_settings, hw, hbeq]
    · simp [update_thank_you_settings, hw, hbeq]
    · simp [update_submission_settings, hw, hbeq]

/-- C2 witness: the amended gate at a concrete non-owner caller. -/
theorem settings_update_auth_gate_witness :
    update_basic_settings dbOne (some "bob") 1
        { name := some "X", website_url := none } =
      (.unauthorized, dbOne, [.readWaitlist 1]) ∧
    update_thank_you_settings dbOne (some "bob") 1
        { title := none, message := none, custom_html := none } =
      (.unauthorized, dbOne, [.readWaitlist 1]) ∧
    update_submission_settings dbOne (some "bob") 1
        { notify_email := none, auto_response := none,
          response_email_template := none } =
      (.unauthorized, dbOne, [.readWaitlist 1]) :=
  (settings_update_auth_gate dbOne 1 _ _ _).2 "bob" (mkWl 1 "beta" "alice")
    rfl (by decide)

/-- C3: Join with referred_by naming an existing entry id increments exactly
that entry's referral_count by 1 and carries every other pre-existing entry
over unchanged; Join with referred_by naming no existing entry raises no
error and changes nothing beyond appending the new entry.  Hypotheses: the
slug resolves, the generated referral_code is fresh, and — as the store's
autoincrement primary key guarantees — every persisted entry id is
positive. -/
theorem join_referred_by_effect (db : DB) (slug em : String)
    (rb freshId : Nat) (freshCode : String) (w : Waitlist)
    (hw : db.waitlists.find? (fun x => x.url_slug == slug) = some w)
    (hfresh : db.entries.any (fun e => e.referral_code == freshCode) = false)
    (hids : ∀ e ∈ db.entries, 0 < e.id) :
    ((∃ e0 ∈ db.entries, e0.id = rb) →
      join_waitlist db slug { email := some em, referred_by := some rb }
          freshId freshCode =
        (.ok { position := nextPosition db w.id, referral_code := freshCode },
         { db with entries := bumpReferral db.entries rb ++
             [{ id := freshId, waitlist_id := w.id, email := em,
                position := nextPosition db w.id, referral_code := freshCode,
                referral_count := 0, referred_by := some rb }] }) ∧
      (∀ e0 ∈ db.entries, e0.id = rb →
        { e0 with referral_count := e0.referral_count + 1 } ∈
          bumpReferral db.entries rb) ∧
      (∀ e ∈ db.entries, e.id ≠ rb → e ∈ bumpReferral db.entries rb)) ∧
    ((∀ e ∈ db.entries, e.id ≠ rb) →
      join_waitlist db slug { email := some em, referred_by := some rb }
          freshId freshCode =
        (.ok { position := nextPosition db w.id, referral_code := freshCode },
         { db with entries := db.entries ++
             [{ id := freshId, waitlist_id := w.id, email := em,
                position := nextPosition db w.id, referral_code := freshCode,
                referral_count := 0, referred_by := some rb }] })) := by
  have hj := join_ok db slug { email := some em, referred_by := some rb }
    freshId freshCode w em hw rfl hfresh
  dsimp only at hj
  constructor
  · intro hex
    obtain ⟨e0, he0, hid⟩ := hex
    have hrb : rb ≠ 0 := by
      have hpos := hids e0 he0
      rw [hid] at hpos
      omega
    have hr0 : (rb == 0) = false := beq_false_of_ne hrb
    have hfind : (db.entries.find? (fun e => e.id == rb)).isSome := by
      rw [List.find?_isSome]
      exact ⟨e0, he0, by simpa using hid⟩
    obtain ⟨e1, hfind1⟩ := Option.isSome_iff_exists.mp hfind
    have heff : referralEffect db.entries (some rb) = bumpReferral db.entries rb := by
      simp [referralEffect, hr0, hfind1]
    rw [heff] at hj
    refine ⟨hj, ?_, ?_⟩
    · intro e2 he2 hid2
      have hidb : (e2.id == rb) = true := by simpa using hid2
      have hfe : (fun e => if e.id == rb then
          { e with referral_count := e.referral_count + 1 } else e) e2 =
          { e2 with referral_count := e2.referral_count + 1 } := by
        simp [hidb]
      unfold bumpReferral
      rw [← hfe]
      exact List.mem_map_of_mem _ he2
    · intro e2 he2 hid2
      have hidb : (e2.id == rb) = false := beq_false_of_ne hid2
      have hfe : (fun e => if e.id == rb then
          { e with referral_count := e.referral_count + 1 } else e) e2 = e2 := by
        simp [hidb]
      unfold bumpReferral
      rw [← hfe]
      exact List.mem_map_of_mem _ he2
  · intro hall
    have heff : referralEffect db.entries (some rb) = db.entries := by
      by_cases hr0 : (rb == 0) = true
      · simp [referralEffect, hr0]
      · have hfind : db.entries.find? (fun e => e.id == rb) = none := by
          rw [List.find?_eq_none]
          intro e he
          simpa using hall e he
        rw [Bool.not_eq_true] at hr0
        simp [referralEffect, hr0, hfind]
    rw [heff] at hj
    exact hj

/-- C3 witness: joining `beta` with referred_by = 1 (the existing entry)
bumps that entry and appends the new one. -/
theorem join_referred_by_effect_witness :
    join_waitlist dbRef "beta" { email := some "b@x.com", referred_by := some 1 }
        2 "r2" =
      (.ok { position := nextPosition dbRef 1, referral_code := "r2" },
       { dbRef with entries := bumpReferral dbRef.entries 1 ++
           [{ id := 2, waitlist_id := 1, email := "b@x.com",
              position := nextPosition dbRef 1, referral_code := "r2",
              referral_count := 0, referred_by := some 1 }] }) :=
  ((join_referred_by_effect dbRef "beta" "b@x.com" 1 2 "r2"
      (mkWl 1 "beta" "alice") rfl rfl (by decide)).1
    ⟨mkEntry 1 1 1 "a@x.com" "r1" none 0, by decide, rfl⟩).1

/-- C4: Join on a url_slug matching no waitlist fails with NotFoundError and
persists nothing (the store is returned unchanged). -/
theorem join_unknown_slug (db : DB) (slug : String) (data : JoinData)
    (freshId : Nat) (freshCode : String)
    (h : db.waitlists.find? (fun x => x.url_slug == slug) = none) :
    join_waitlist db slug data freshId freshCode = (.error .notFound, db) := by
  simp [join_waitlist, h]

/-- C4 witness: joining the unknown slug `gamma`. -/
theorem join_unknown_slug_witness :
    join_waitlist dbOne "gamma" { email := some "a@x.com", referred_by := none }
        1 "c1" = (.error .notFound, dbOne) :=
  join_unknown_slug dbOne "gamma" _ 1 "c1" (by decide)

/-- C5: Join is all-or-nothing: every call either fails with the store
returned unchanged (no partial write — in particular a commit-time conflict
discards the referrer increment), or succeeds with the new entry and the
referrer update persisted together in the one committed state. -/
theorem join_all_or_nothing (db : DB) (slug : String) (data : JoinData)
    (freshId : Nat) (freshCode : String) :
    (∃ e : Err, join_waitlist db slug data freshId freshCode = (.error e, db)) ∨
    (∃ (w : Waitlist) (em : String),
      db.waitlists.find? (fun x => x.url_slug == slug) = some w ∧
      data.email = some em ∧
      join_waitlist db slug data freshId freshCode =
        (.ok { position := nextPosition db w.id, referral_code := freshCode },
         { db with entries := referralEffect db.entries data.referred_by ++
             [{ id := freshId, waitlist_id := w.id, email := em,
                position := nextPosition db w.id, referral_code := freshCode,
                referral_count := 0, referred_by := data.referred_by }] })) := by
  cases hf : db.waitlists.find? (fun x => x.url_slug == slug) with
  | none => exact .inl ⟨.notFound, by simp [join_waitlist, hf]⟩
  | some w =>
    cases he : data.email with
    | none => exact .inl ⟨.validationError "email", by simp [join_waitlist, hf, he]⟩
    | some em =>
      cases hc : db.entries.any (fun e => e.referral_code == freshCode) with
      | true => exact .inl ⟨.conflictError, by simp [join_waitlist, hf, he, hc]⟩
      | false =>
        exact .inr ⟨w, em, rfl, rfl,
          join_ok db slug data freshId freshCode w em hf he hc⟩

/-- C6: For a waitlist owned by the caller, UpdateThankYouPage with only the
title supplied succeeds and stores a thank_you_page whose message and
custom_html are exactly the previous values (unspecified fields default to
the current values). -/
theorem update_thank_you_only_title (db : DB) (uid : String) (wid : Nat)
    (w : Waitlist) (t : String)
    (hw : db.waitlists.find? (fun x => x.id == wid) = some w)
    (howner : w.user_id = uid) :
    ∃ db' : DB,
      update_thank_you_settings db (some uid) wid
          { title := some t, message := none, custom_html := none } =
        (.success, db', [.readWaitlist wid, .commit]) ∧
      db'.waitlists.find? (fun x => x.id == wid) =
        some { w with thank_you_page :=
          { title := some t
            message := w.thank_you_page.message
            custom_html := w.thank_you_page.custom_html } } := by
  have hbeq : (w.user_id == uid) = true := by simp [howner]
  have hupd : update_thank_you_settings db (some uid) wid
      ⟨some t, none, none⟩ =
      (.success,
       { db with waitlists := db.waitlists.map (fun x =>
           if x.id == wid then
             { w with thank_you_page :=
                 mergeThankYou w.thank_you_page ⟨some t, none, none⟩ }
           else x) },
       [.readWaitlist wid, .commit]) := by
    simp [update_thank_you_settings, hw, hbeq]
  exact ⟨_, hupd, find?_update_by_id db.waitlists wid w _ hw rfl⟩

/-- C6 witness: setting only the title on `beta` keeps the default message
and custom_html. -/
theorem update_thank_you_only_title_witness :
    ∃ db' : DB,
      update_thank_you_settings dbOne (some "alice") 1
          { title := some "Hi", message := none, custom_html := none } =
        (.success, db', [.readWaitlist 1, .commit]) ∧
      db'.waitlists.find? (fun x => x.id == 1) =
        some { mkWl 1 "beta" "alice" with thank_you_page :=
          { title := some "Hi"
            message := (mkWl 1 "beta" "alice").thank_you_page.message
            custom_html := (mkWl 1 "beta" "alice").thank_you_page.custom_html } } :=
  update_thank_you_only_title dbOne "alice" 1 (mkWl 1 "beta" "alice") "Hi" rfl rfl

/-- C7: Create with name, description or url_slug absent from the payload
fails with a ValidationError naming a missing key and persists nothing; with
all three keys present (any string values whatsoever, no format check) and
no uniqueness conflict, Create succeeds and persists the new waitlist. -/
theorem create_required_keys (db : DB) (uid : String) (data : CreateData)
    (freshId : Nat) (freshFormKey : String) :
    ((data.name = none ∨ data.description = none ∨ data.url_slug = none) →
      ∃ k : String, create_waitlist db (some uid) data freshId freshFormKey =
        (.error (.validationError k), db)) ∧
    (∀ nm ds us : String, data.name = some nm → data.description = some ds →
      data.url_slug = some us →
      db.waitlists.any (fun x => x.url_slug == us) = false →
      db.waitlists.any (fun x => x.form_key == freshFormKey) = false →
      ∃ w : Waitlist,
        create_waitlist db (some uid) data freshId freshFormKey =
          (.ok freshId, { db with waitlists := db.waitlists ++ [w] }) ∧
        w.name = nm ∧ w.description = ds ∧ w.url_slug = us ∧
        w.user_id = uid ∧ w.is_published = false ∧ w.form_key = freshFormKey) := by
  constructor
  · intro h
    cases hn : data.name with
    | none => exact ⟨"name", by simp [create_waitlist, hn]⟩
    | some nm =>
      cases hd : data.description with
      | none => exact ⟨"description", by simp [create_waitlist, hn, hd]⟩
      | some ds =>
        cases hu : data.url_slug with
        | none => exact ⟨"url_slug", by simp [create_waitlist, hn, hd, hu]⟩
        | some us =>
          rw [hn, hd, hu] at h
          rcases h with h | h | h <;> simp at h
  · intro nm ds us hn hd hu ha hf
    refine ⟨⟨freshId, nm, ds, us, none, freshFormKey,
        data.custom_styles.getD [], defaultThankYouPage,
        defaultSubmissionSettings, false, uid⟩,
      ?_, rfl, rfl, rfl, rfl, rfl, rfl⟩
    simp [create_waitlist, hn, hd, hu, ha, hf]

/-- C7 witness: a payload missing `name` is rejected with nothing persisted;
a complete payload with unchecked string values is persisted. -/
theorem create_required_keys_witness :
    (∃ k : String, create_waitlist dbOne (some "alice")
        { name := none, description := some "d", url_slug := some "s",
          custom_styles := none } 5 "fk5" =
      (.error (.validationError k), dbOne)) ∧
    (∃ w : Waitlist, create_waitlist dbOne (some "alice")
        { name := some "N", description := some "D", url_slug := some "s2",
          custom_styles := none } 5 "fk5" =
      (.ok 5, { dbOne with waitlists := dbOne.waitlists ++ [w] }) ∧
      w.name = "N" ∧ w.description = "D" ∧ w.url_slug = "s2" ∧
      w.user_id = "alice" ∧ w.is_published = false ∧ w.form_key = "fk5") :=
  ⟨(create_required_keys dbOne "alice" _ 5 "fk5").1 (Or.inl rfl),
   (create_required_keys dbOne "alice" _ 5 "fk5").2 "N" "D" "s2" rfl rfl rfl
     (by decide) (by decide)⟩

/-- C8: For a waitlist owned by the caller, Analytics returns total_entries
equal to the number of entries with that waitlist_id, total_referrals equal
to the sum of referral_count over exactly those entries, and daily_joins as
the empty mapping. -/
theorem analytics_totals (db : DB) (uid : String) (wid : Nat) (w : Waitlist)
    (hw : db.waitlists.find? (fun x => x.id == wid) = some w)
    (howner : w.user_id = uid) :
    analytics db (some uid) wid =
      .ok { total_entries := db.entries.countP (fun e => e.waitlist_id == wid)
            total_referrals :=
              ((db.entries.filter (fun e => e.waitlist_id == wid)).map
                (fun e => e.referral_count)).sum
            daily_joins := [] } := by
  have hbeq : (w.user_id == uid) = true := by simp [howner]
  simp [analytics, hw, hbeq, entriesFor, List.countP_eq_length_filter]

/-- C8 witness: waitlist 1 of the sample store has 2 entries and 3 total
referrals; the unrelated entry of waitlist 2 is not counted. -/
theorem analytics_totals_witness :
    analytics dbStats (some "alice") 1 =
      .ok { total_entries := 2, total_referrals := 3, daily_joins := [] } := by
  rw [analytics_totals dbStats "alice" 1 (mkWl 1 "beta" "alice") rfl rfl]
  rfl

/-- C9: the read-max-then-insert sequence of Join is not serialized: with
the `beta` waitlist empty, each of two overlapping Join calls performs the
position read (`joinRead`) against the same store state and obtains next
position 1, and after both inserts (`joinCommit`) the waitlist holds two
entries with the duplicate position value 1. -/
theorem join_position_race :
    joinRead dbOne "beta" = some (1, 1) ∧
    (entriesFor (joinCommit (joinCommit dbOne 1 1 "a@x.com" "c1" 1)
        1 1 "b@x.com" "c2" 2) 1).map (fun e => e.position) = [1, 1] ∧
    ¬ ((entriesFor (joinCommit (joinCommit dbOne 1 1 "a@x.com" "c1" 1)
        1 1 "b@x.com" "c2" 2) 1).map (fun e => e.position)).Nodup := by
  refine ⟨rfl, rfl, by decide⟩

/-- C10: Join does not restrict the referrer to the waitlist being joined —
a referred_by naming an existing entry of a different waitlist still gets
its referral_count incremented, crediting a referrer in waitlist A for a
join to waitlist B. -/
theorem join_cross_waitlist_referral (db : DB) (slug em : String)
    (rb freshId : Nat) (freshCode : String) (w : Waitlist) (e0 : WaitlistEntry)
    (hw : db.waitlists.find? (fun x => x.url_slug == slug) = some w)
    (hfresh : db.entries.any (fun e => e.referral_code == freshCode) = false)
    (he0 : db.entries.find? (fun e => e.id == rb) = some e0)
    (hdiff : e0.waitlist_id ≠ w.id)
    (hrb : rb ≠ 0) :
    ∃ db' : DB,
      join_waitlist db slug { email := some em, referred_by := some rb }
          freshId freshCode =
        (.ok { position := nextPosition db w.id, referral_code := freshCode },
         db') ∧
      { e0 with referral_count := e0.referral_count + 1 } ∈ db'.entries ∧
      e0.waitlist_id ≠ w.id := by
  have hj := join_ok db slug { email := some em, referred_by := some rb }
    freshId freshCode w em hw rfl hfresh
  dsimp only at hj
  have hr0 : (rb == 0) = false := beq_false_of_ne hrb
  have heff : referralEffect db.entries (some rb) = bumpReferral db.entries rb := by
    simp [referralEffect, hr0, he0]
  rw [heff] at hj
  refine ⟨_, hj, ?_, hdiff⟩
  have hidb : (e0.id == rb) = true :=
    @List.find?_some WaitlistEntry (fun e => e.id == rb) e0 db.entries he0
  have hmem : e0 ∈ db.entries :=
    @List.mem_of_find?_eq_some WaitlistEntry (fun e => e.id == rb) e0
      db.entries he0
  show { e0 with referral_count := e0.referral_count + 1 } ∈
    bumpReferral db.entries rb ++
      [{ id := freshId, waitlist_id := w.id, email := em,
         position := nextPosition db w.id, referral_code := freshCode,
         referral_count := 0, referred_by := some rb }]
  rw [List.mem_append]
  left
  have hfe : (fun e => if e.id == rb then
      { e with referral_count := e.referral_count + 1 } else e) e0 =
      { e0 with referral_count := e0.referral_count + 1 } := by
    simp [hidb]
  unfold bumpReferral
  rw [← hfe]
  exact List.mem_map_of_mem _ hmem

/-- C10 witness: the entry enrolled in `alpha` is credited for a join to
`beta`. -/
theorem join_cross_waitlist_referral_witness :
    ∃ db' : DB,
      join_waitlist dbTwo "beta"
          { email := some "b@x.com", referred_by := some 1 } 2 "r2" =
        (.ok { position := nextPosition dbTwo (mkWl 2 "beta" "bob").id,
               referral_code := "r2" }, db') ∧
      { mkEntry 1 1 1 "a@x.com" "r1" none 0 with referral_count :=
          (mkEntry 1 1 1 "a@x.com" "r1" none 0).referral_count + 1 } ∈
        db'.entries ∧
      (mkEntry 1 1 1 "a@x.com" "r1" none 0).waitlist_id ≠
        (mkWl 2 "beta" "bob").id :=
  join_cross_waitlist_referral dbTwo "beta" "b@x.com" 1 2 "r2"
    (mkWl 2 "beta" "bob") (mkEntry 1 1 1 "a@x.com" "r1" none 0)
    rfl rfl rfl (by decide) (by decide)
